import Mathlib

/-!
Shallow embedding of the catalog entity registry
(`CatalogEntityRegistry`, src/unnamed/part_000) of speedodin/lens.

The registry holds an ordered list of catalog entities, replaces it
wholesale on every snapshot via the category registry's
`getEntityForData`, keeps a freely mutable `activeEntity` reference, and
answers queries by id, by (apiVersion, kind), and by category.

The category registry is an external collaborator supplied to the
constructor; we model it as an explicit function argument
`g : CatalogEntityData → CatalogEntity` (and, for the analysis of a
throwing collaborator, `g : CatalogEntityData → Except ε CatalogEntity`).
-/

/-- `metadata` record of a catalog entity; the registry only reads `uid`. -/
structure EntityMetadata where
  uid : String
  deriving DecidableEq, Repr

/-- A typed catalog entity as seen by the registry: identity fields plus an
opaque kind-specific payload. -/
structure CatalogEntity where
  apiVersion : String
  kind : String
  metadata : EntityMetadata
  payload : String
  deriving DecidableEq, Repr

/-- A raw entity data record (`CatalogEntityData & CatalogEntityKindData`)
delivered in a snapshot: identity fields plus an opaque payload. -/
structure CatalogEntityData where
  apiVersion : String
  kind : String
  uid : String
  payload : String
  deriving DecidableEq, Repr

/-- One declared version of a catalog category (`category.spec.versions[i]`). -/
structure CatalogCategoryVersion where
  name : String
  deriving DecidableEq, Repr

/-- The `names` block of a category spec; the registry reads only `kind`. -/
structure CatalogCategoryNames where
  kind : String
  deriving DecidableEq, Repr

/-- The `spec` block of a catalog category: a group, its declared versions,
and the shared kind name. -/
structure CatalogCategorySpec where
  group : String
  versions : List CatalogCategoryVersion
  names : CatalogCategoryNames
  deriving DecidableEq, Repr

/-- A catalog category descriptor; used only for filtering. -/
structure CatalogCategory where
  spec : CatalogCategorySpec
  deriving DecidableEq, Repr

/-- State of `CatalogEntityRegistry`: the `_items` list and the
`_activeEntity` reference (initially undefined, hence `Option`). -/
structure CatalogEntityRegistry where
  _items : List CatalogEntity
  _activeEntity : Option CatalogEntity
  deriving DecidableEq, Repr

namespace CatalogEntityRegistry

/-- `get items()`: the current entity list. -/
def items (r : CatalogEntityRegistry) : List CatalogEntity :=
  r._items

/-- `get activeEntity()`: the current active-entity reference. -/
def activeEntity (r : CatalogEntityRegistry) : Option CatalogEntity :=
  r._activeEntity

/-- `set activeEntity(entity)`: plain assignment to `_activeEntity`. -/
def setActiveEntity (r : CatalogEntityRegistry) (e : CatalogEntity) :
    CatalogEntityRegistry :=
  { r with _activeEntity := some e }

/-- `updateItems(items)`: replaces `_items` with the snapshot mapped
through the category registry's `getEntityForData` (here `g`). -/
def updateItems (g : CatalogEntityData → CatalogEntity)
    (r : CatalogEntityRegistry) (snapshot : List CatalogEntityData) :
    CatalogEntityRegistry :=
  { r with _items := snapshot.map g }

/-- `items.map(data => ...)` under a collaborator that may throw:
JavaScript `Array.map` applies the callback left to right and the first
exception aborts the whole map before any assignment happens. -/
def mapExc (g : CatalogEntityData → Except String CatalogEntity) :
    List CatalogEntityData → Except String (List CatalogEntity)
  | [] => Except.ok []
  | d :: ds =>
    match g d with
    | Except.error e => Except.error e
    | Except.ok b =>
      match mapExc g ds with
      | Except.error e => Except.error e
      | Except.ok bs => Except.ok (b :: bs)

/-- `updateItems` under a throwing collaborator: on an exception the
assignment to `_items` never runs, the registry is unchanged and the
exception propagates (returned as `some` message). -/
def updateItemsExc (g : CatalogEntityData → Except String CatalogEntity)
    (r : CatalogEntityRegistry) (snapshot : List CatalogEntityData) :
    CatalogEntityRegistry × Option String :=
  match mapExc g snapshot with
  | Except.ok es => ({ r with _items := es }, none)
  | Except.error e => (r, some e)

/-- `getById(id)`: first entity whose `metadata.uid` equals `id`. -/
def getById (r : CatalogEntityRegistry) (id : String) :
    Option CatalogEntity :=
  r._items.find? (fun entity => entity.metadata.uid == id)

/-- `getItemsForApiKind(apiVersion, kind)`: entities matching both strings
exactly. -/
def getItemsForApiKind (r : CatalogEntityRegistry)
    (apiVersion kind : String) : List CatalogEntity :=
  r._items.filter (fun item => item.apiVersion == apiVersion && item.kind == kind)

/-- `getItemsForCategory(category)`: builds `group + "/" + version.name`
for every declared version, then filters `items` by membership of
`apiVersion` in that list and equality of `kind`. -/
def getItemsForCategory (r : CatalogEntityRegistry)
    (category : CatalogCategory) : List CatalogEntity :=
  let supportedVersions :=
    category.spec.versions.map (fun v => category.spec.group ++ "/" ++ v.name)
  r._items.filter (fun item =>
    supportedVersions.contains item.apiVersion &&
      item.kind == category.spec.names.kind)

end CatalogEntityRegistry

/-! ## Helper lemmas -/

/-- A successful `find?` splits the list at the first match: everything
before the returned element fails the predicate. -/
theorem find?_first_split {α : Type} (p : α → Bool) :
    ∀ (l : List α) (a : α), l.find? p = some a →
      p a = true ∧ ∃ l₁ l₂, l = l₁ ++ a :: l₂ ∧ ∀ b ∈ l₁, p b = false
  | [], a, h => by simp [List.find?] at h
  | x :: xs, a, h => by
    by_cases hx : p x = true
    · rw [List.find?_cons_of_pos _ hx] at h
      obtain rfl : x = a := by injection h
      exact ⟨hx, [], xs, rfl, by simp⟩
    · rw [List.find?_cons_of_neg _ hx] at h
      obtain ⟨hpa, l₁, l₂, hsplit, hprev⟩ := find?_first_split p xs a h
      refine ⟨hpa, x :: l₁, l₂, by rw [hsplit, List.cons_append], ?_⟩
      intro b hb
      rcases List.mem_cons.mp hb with rfl | hb'
      · exact Bool.not_eq_true _ ▸ by simpa using hx
      · exact hprev b hb'

/-- If some record of the snapshot makes the collaborator throw, the
exception-aware map aborts with an error. -/
theorem mapExc_error_of_mem (g : CatalogEntityData → Except String CatalogEntity) :
    ∀ (S : List CatalogEntityData),
      (∃ d ∈ S, ∃ msg, g d = Except.error msg) →
      ∃ e, CatalogEntityRegistry.mapExc g S = Except.error e
  | [], h => by simp at h
  | d :: ds, h => by
    cases hgd : g d with
    | error e => exact ⟨e, by simp [CatalogEntityRegistry.mapExc, hgd]⟩
    | ok b =>
      obtain ⟨d', hd', msg, hmsg⟩ := h
      rcases List.mem_cons.mp hd' with rfl | hmem
      · rw [hgd] at hmsg; cases hmsg
      · obtain ⟨e, he⟩ := mapExc_error_of_mem g ds ⟨d', hmem, msg, hmsg⟩
        exact ⟨e, by simp [CatalogEntityRegistry.mapExc, hgd, he]⟩

/-! ## Concrete instances used by witnesses -/

/-- An identity-preserving category-registry collaborator. -/
def wGood : CatalogEntityData → CatalogEntity :=
  fun d =>
    { apiVersion := d.apiVersion, kind := d.kind,
      metadata := { uid := d.uid }, payload := d.payload }

/-- A collaborator that throws on the record with uid `"b"`. -/
def wBad : CatalogEntityData → Except String CatalogEntity :=
  fun d => if d.uid == "b" then Except.error "boom" else Except.ok (wGood d)

/-- First concrete raw record. -/
def wD1 : CatalogEntityData :=
  { apiVersion := "g/v1", kind := "Cluster", uid := "a", payload := "p" }

/-- Second concrete raw record. -/
def wD2 : CatalogEntityData :=
  { apiVersion := "g/v2", kind := "Cluster", uid := "b", payload := "q" }

/-- A concrete snapshot of two records. -/
def wSnap : List CatalogEntityData := [wD1, wD2]

/-- A concrete prior entity. -/
def wPrev : CatalogEntity :=
  { apiVersion := "g/v0", kind := "Cluster", metadata := { uid := "z" }, payload := "old" }

/-- A concrete prior registry state with one entity. -/
def wReg : CatalogEntityRegistry :=
  { _items := [wPrev], _activeEntity := none }

/-- A concrete registry whose items are the mapped snapshot. -/
def wReg2 : CatalogEntityRegistry :=
  { _items := [wGood wD1, wGood wD2], _activeEntity := none }

/-! ## Claim theorems -/

/-- C1: after `updateItems(S)` the items collection has exactly `S.length`
elements, the i-th element is `getEntityForData` applied to the i-th
record, and, assuming the collaborator preserves the identity fields,
each resulting entity's `apiVersion`, `kind` and `metadata.uid` equal
those of the corresponding source record. -/
theorem updateItems_length_and_identity
    (g : CatalogEntityData → CatalogEntity) (r : CatalogEntityRegistry)
    (S : List CatalogEntityData)
    (hg : ∀ d, (g d).apiVersion = d.apiVersion ∧ (g d).kind = d.kind ∧
      (g d).metadata.uid = d.uid) :
    (CatalogEntityRegistry.updateItems g r S).items.length = S.length ∧
    (CatalogEntityRegistry.updateItems g r S).items = S.map g ∧
    ∀ (i : Nat) (d : CatalogEntityData) (e : CatalogEntity), S[i]? = some d →
      ((CatalogEntityRegistry.updateItems g r S).items)[i]? = some e →
      e.apiVersion = d.apiVersion ∧ e.kind = d.kind ∧
        e.metadata.uid = d.uid := by
  refine ⟨by simp [CatalogEntityRegistry.updateItems, CatalogEntityRegistry.items], rfl, ?_⟩
  intro i d e hd he
  have h1 : Option.map g S[i]? = some e := by
    rw [← List.getElem?_map g S i]; exact he
  rw [hd] at h1
  simp only [Option.map_some'] at h1
  obtain rfl : g d = e := by injection h1
  exact hg d

/-- Witness for C1: the identity-preserving collaborator `wGood`, the
registry `wReg` and the snapshot `wSnap`, with the element property read
off at index 0. -/
theorem updateItems_length_and_identity_witness :
    (CatalogEntityRegistry.updateItems wGood wReg wSnap).items.length = wSnap.length ∧
    ((wGood wD1).apiVersion = wD1.apiVersion ∧ (wGood wD1).kind = wD1.kind ∧
      (wGood wD1).metadata.uid = wD1.uid) :=
  ⟨(updateItems_length_and_identity wGood wReg wSnap
      (fun _ => ⟨rfl, rfl, rfl⟩)).1,
   (updateItems_length_and_identity wGood wReg wSnap
      (fun _ => ⟨rfl, rfl, rfl⟩)).2.2 0 wD1 (wGood wD1) rfl rfl⟩

/-- C2: `getItemsForCategory(c)` returns exactly those elements of `items`
whose `kind` equals the category's declared kind and whose `apiVersion`
is `group ++ "/" ++ name` for some declared version, and no others. -/
theorem getItemsForCategory_exact (r : CatalogEntityRegistry)
    (c : CatalogCategory) (e : CatalogEntity) :
    e ∈ CatalogEntityRegistry.getItemsForCategory r c ↔
      e ∈ r.items ∧ e.kind = c.spec.names.kind ∧
        ∃ v ∈ c.spec.versions,
          e.apiVersion = c.spec.group ++ "/" ++ v.name := by
  constructor
  · intro hmem
    obtain ⟨hin, hcond⟩ := List.mem_filter.mp hmem
    rw [Bool.and_eq_true] at hcond
    obtain ⟨hcontains, hkind⟩ := hcond
    refine ⟨hin, by simpa using hkind, ?_⟩
    have hmem2 : e.apiVersion ∈
        c.spec.versions.map (fun v => c.spec.group ++ "/" ++ v.name) :=
      List.elem_iff.mp hcontains
    obtain ⟨v, hv, heq⟩ := List.mem_map.mp hmem2
    exact ⟨v, hv, heq.symm⟩
  · rintro ⟨hin, hkind, v, hv, hav⟩
    refine List.mem_filter.mpr ⟨hin, ?_⟩
    rw [Bool.and_eq_true]
    refine ⟨?_, by simpa using hkind⟩
    exact List.elem_iff.mpr (List.mem_map.mpr ⟨v, hv, hav.symm⟩)

/-- C3: `getById(x)` succeeds iff an entity with `metadata.uid = x` is in
`items`, returns `none` otherwise, and a returned entity is the first
match in items order. -/
theorem getById_first_match (r : CatalogEntityRegistry) (x : String) :
    ((CatalogEntityRegistry.getById r x).isSome ↔
      ∃ e ∈ r.items, e.metadata.uid = x) ∧
    (CatalogEntityRegistry.getById r x = none ↔
      ∀ e ∈ r.items, e.metadata.uid ≠ x) ∧
    ∀ e, CatalogEntityRegistry.getById r x = some e →
      e.metadata.uid = x ∧
      ∃ l₁ l₂, r.items = l₁ ++ e :: l₂ ∧ ∀ a ∈ l₁, a.metadata.uid ≠ x := by
  refine ⟨?_, ?_, ?_⟩
  · simp [CatalogEntityRegistry.getById, CatalogEntityRegistry.items,
      List.find?_isSome]
  · simp [CatalogEntityRegistry.getById, CatalogEntityRegistry.items,
      List.find?_eq_none]
  · intro e he
    have he' : List.find?
        (fun entity : CatalogEntity => entity.metadata.uid == x) r._items =
        some e := he
    obtain ⟨hpe, l₁, l₂, hsplit, hprev⟩ :=
      find?_first_split
        (fun entity : CatalogEntity => entity.metadata.uid == x) r._items e he'
    refine ⟨by simpa using hpe, l₁, l₂, hsplit, ?_⟩
    intro a ha
    simpa using hprev a ha

/-- Witness for C3: in the concrete registry `wReg2`, `getById "a"`
returns the entity of uid `"a"`, which heads the split. -/
theorem getById_first_match_witness :
    (wGood wD1).metadata.uid = "a" ∧
    ∃ l₁ l₂, wReg2.items = l₁ ++ (wGood wD1) :: l₂ ∧
      ∀ a ∈ l₁, a.metadata.uid ≠ "a" :=
  (getById_first_match wReg2 "a").2.2 (wGood wD1) (by decide)

/-- C4: if the collaborator throws on some record of the snapshot, the
exception propagates out of `updateItems` and `items` is left exactly at
its previous value. -/
theorem updateItemsExc_error_preserves
    (g : CatalogEntityData → Except String CatalogEntity)
    (r : CatalogEntityRegistry) (S : List CatalogEntityData)
    (h : ∃ d ∈ S, ∃ msg, g d = Except.error msg) :
    (CatalogEntityRegistry.updateItemsExc g r S).1 = r ∧
    ∃ msg, (CatalogEntityRegistry.updateItemsExc g r S).2 = some msg := by
  obtain ⟨e, he⟩ := mapExc_error_of_mem g S h
  simp [CatalogEntityRegistry.updateItemsExc, he]

/-- Witness for C4: `wBad` throws on the second record of `wSnap`, and the
registry `wReg` is unchanged. -/
theorem updateItemsExc_error_preserves_witness :
    (CatalogEntityRegistry.updateItemsExc wBad wReg wSnap).1 = wReg ∧
    ∃ msg, (CatalogEntityRegistry.updateItemsExc wBad wReg wSnap).2 = some msg :=
  updateItemsExc_error_preserves wBad wReg wSnap
    ⟨wD2, by decide, "boom", rfl⟩

/-- C5: after `updateItems(S1); updateItems(S2)` the items collection is
determined solely by `S2`: it is the mapping of `S2` through the
collaborator, identical to what a direct `updateItems(S2)` yields. -/
theorem updateItems_supersedes (g : CatalogEntityData → CatalogEntity)
    (r : CatalogEntityRegistry) (S₁ S₂ : List CatalogEntityData) :
    (CatalogEntityRegistry.updateItems g
        (CatalogEntityRegistry.updateItems g r S₁) S₂).items = S₂.map g ∧
    (CatalogEntityRegistry.updateItems g
        (CatalogEntityRegistry.updateItems g r S₁) S₂).items =
      (CatalogEntityRegistry.updateItems g r S₂).items :=
  ⟨rfl, rfl⟩

/-- C6: calling `updateItems(S)` twice with the same snapshot yields an
observably identical items collection after each call. -/
theorem updateItems_idempotent (g : CatalogEntityData → CatalogEntity)
    (r : CatalogEntityRegistry) (S : List CatalogEntityData) :
    (CatalogEntityRegistry.updateItems g
        (CatalogEntityRegistry.updateItems g r S) S).items =
      (CatalogEntityRegistry.updateItems g r S).items :=
  rfl

/-- C7: `getItemsForApiKind(apiVersion, kind)` returns exactly those
elements of `items` whose `apiVersion` and `kind` both equal the
arguments under exact string equality. -/
theorem getItemsForApiKind_exact (r : CatalogEntityRegistry)
    (av k : String) (e : CatalogEntity) :
    e ∈ CatalogEntityRegistry.getItemsForApiKind r av k ↔
      e ∈ r.items ∧ e.apiVersion = av ∧ e.kind = k := by
  simp [CatalogEntityRegistry.getItemsForApiKind,
    CatalogEntityRegistry.items, List.mem_filter, and_assoc]

/-- C8: setting `activeEntity` to any entity (present in `items` or not)
and reading it back returns that same entity, and `items` is untouched. -/
theorem setActiveEntity_roundtrip (r : CatalogEntityRegistry)
    (e : CatalogEntity) :
    (CatalogEntityRegistry.setActiveEntity r e).activeEntity = some e ∧
    (CatalogEntityRegistry.setActiveEntity r e).items = r.items :=
  ⟨rfl, rfl⟩

/-- C9: `updateItems(S)` leaves `activeEntity` unchanged, whatever the new
snapshot contains. -/
theorem updateItems_frame_activeEntity (g : CatalogEntityData → CatalogEntity)
    (r : CatalogEntityRegistry) (S : List CatalogEntityData) :
    (CatalogEntityRegistry.updateItems g r S).activeEntity = r.activeEntity :=
  rfl

/-- C10: the results of `getItemsForApiKind` and `getItemsForCategory` are
sublists of `items`: every returned element occurs in `items` and the
relative order is preserved. -/
theorem query_results_sublist (r : CatalogEntityRegistry)
    (av k : String) (c : CatalogCategory) :
    List.Sublist (CatalogEntityRegistry.getItemsForApiKind r av k) r.items ∧
    List.Sublist (CatalogEntityRegistry.getItemsForCategory r c) r.items :=
  ⟨List.filter_sublist r._items, List.filter_sublist r._items⟩
